import Mathlib

/-!
Verification development for the worker-pool core of the repository
(`worker-pool.js`, classes `SimpleWorker` and `WorkerPool`) and for the
force-flag parsing of `readability-server/index.js`.

The JavaScript is shallowly embedded as pure Lean functions:

* mutable object state (`this._worker`, `this._promise`, `this._timer`,
  `this._free`, `this._waiting`) becomes explicit state records that the
  operations thread through;
* side effects (resolving or rejecting the caller's promise, posting a
  message to the backing worker thread, `console` logging, and
  `worker.terminate()` teardown) are collected in an explicit effect record
  returned alongside the new state;
* JS `undefined`/absent fields become `Option.none`, and JS truthiness
  tests (`if (message.error)`, `cause || 'TERMINATED'`,
  `options && options.timeout`) are translated with their exact
  falsy cases (absent value, empty string, zero).

JS arrays are modelled by Lean lists with the push/pop end (the end of the
JS array) at the HEAD of the Lean list, so `array.push(x)` is `x :: l` and
`array.pop()` takes the head; `array.shift()` (used on `_waiting`, whose
push end is therefore the list TAIL here) takes from the front of the JS
array, which for `_waiting` we keep in JS order: push is `l ++ [x]`,
shift is the head.
-/

namespace WM

/-- Opaque task argument/result values (the pool never inspects them). -/
abbrev Val := String

/-- Outbound message posted to the backing runtime by `SimpleWorker.send`:
`this._worker.postMessage(\x7bid: Math.random(), args\x7d)`. The random
correlation id is modelled as an arbitrary `Nat` chosen by the caller of
the model. -/
structure OutMessage where
  id : Nat
  args : List Val
deriving DecidableEq

/-- Inbound message from the backing runtime (or synthesized by
`terminate`). Fields may be absent in JS; absence is `Option.none`. -/
structure InMessage where
  id : Option Nat
  value : Option Val
  error : Option String
  stack : Option String
deriving DecidableEq

/-- A settlement of a caller's pending promise: `promise.resolve(value)` or
`promise.reject(error)` in `_handleMessage`. The `callId` identifies which
caller's `send` promise is settled. -/
inductive Resolution where
  | resolve (callId : Nat) (v : Option Val)
  | reject (callId : Nat) (msg : String) (stack : Option String)
deriving DecidableEq

/-- Console diagnostics the worker code emits. -/
inductive LogEvent where
  | spuriousMessage
  | teardownOk
  | teardownFailed
deriving DecidableEq

/-- Effects performed by one operation on a `SimpleWorker`: promise
settlements, messages posted to the backing runtime, console logs, and the
generations of backing runtimes torn down (fire-and-forget). -/
structure WEffect where
  resolutions : List Resolution
  outbox : List OutMessage
  logs : List LogEvent
  teardowns : List Nat
deriving DecidableEq

/-- The empty effect record. -/
def WEffect.empty : WEffect := ⟨[], [], [], []⟩

/-- Options object for `send`; `timeout` may be absent (and `0` is falsy). -/
structure SendOptions where
  timeout : Option Nat
deriving DecidableEq

/-- Truthiness of `options && options.timeout`: the timeout to arm, or
`none` when options are absent or the timeout is absent or zero. -/
def timeoutOf : Option SendOptions → Option Nat
  | some o =>
    match o.timeout with
    | some t => if t = 0 then none else some t
    | none => none
  | none => none

/-- A thrown JS error as observed by `implementWorker`'s catch clause:
`error.message` (a string, possibly empty) and `error.stack` (possibly
absent). -/
structure JsError where
  message : String
  stack : Option String
deriving DecidableEq

/-- State of one `SimpleWorker`: `workerGen` numbers the current backing
runtime handle (`this._worker`; `_createWorker` bumps it), `promise` is the
pending call slot (`this._promise`, holding the caller id of the pending
call, `none` when idle), `timer` is the armed timeout (`this._timer`;
`none` when no timeout is armed). -/
structure SimpleWorker where
  workerGen : Nat
  promise : Option Nat
  timer : Option Nat
deriving DecidableEq

/-- The `_handleMessage` method: if a promise is pending, clear the timer,
clear the slot, then reject when `message.error` is truthy (a present,
non-empty string) with an `Error` carrying that message and the relayed
stack, otherwise resolve with `message.value`; with no pending promise the
message is spurious and only logged. Note the truthiness test: a present
but EMPTY `error` string takes the resolve branch. -/
def SimpleWorker.handleMessage (s : SimpleWorker) (m : InMessage) :
    SimpleWorker × WEffect :=
  match s.promise with
  | some callId =>
    let s1 : SimpleWorker := ⟨s.workerGen, none, none⟩
    match m.error with
    | some e =>
      if e = "" then
        (s1, ⟨[Resolution.resolve callId m.value], [], [], []⟩)
      else
        (s1, ⟨[Resolution.reject callId e m.stack], [], [], []⟩)
    | none => (s1, ⟨[Resolution.resolve callId m.value], [], [], []⟩)
  | none => (s, ⟨[], [], [LogEvent.spuriousMessage], []⟩)

/-- JS `a || dflt` on an optional string `a` (falsy when absent or empty). -/
def jsOr (cause : Option String) (dflt : String) : String :=
  match cause with
  | some c => if c = "" then dflt else c
  | none => dflt

/-- The `terminate(cause = null)` method: tears down the current backing
runtime without awaiting the returned promise (success or failure of the
teardown is only logged), immediately replaces it
(`this._worker = this._createWorker()`), and, if a promise is pending,
routes `\x7berror: cause || 'TERMINATED'\x7d` through `_handleMessage`.
`teardownOk` is the eventual outcome of the fire-and-forget teardown. -/
def SimpleWorker.terminate (s : SimpleWorker) (cause : Option String)
    (teardownOk : Bool) : SimpleWorker × WEffect :=
  let tlog := if teardownOk then LogEvent.teardownOk else LogEvent.teardownFailed
  let s1 : SimpleWorker := ⟨s.workerGen + 1, s.promise, s.timer⟩
  match s1.promise with
  | some _ =>
    let r := s1.handleMessage ⟨none, none, some (jsOr cause "TERMINATED"), none⟩
    (r.1, ⟨r.2.resolutions, r.2.outbox, r.2.logs ++ [tlog], [s.workerGen]⟩)
  | none => (s1, ⟨[], [], [tlog], [s.workerGen]⟩)

/-- The `_handleTimeout` method: `this.terminate('TIMEDOUT')`. -/
def SimpleWorker.handleTimeout (s : SimpleWorker) (teardownOk : Bool) :
    SimpleWorker × WEffect :=
  s.terminate (some "TIMEDOUT") teardownOk

/-- The `send(options, ...args)` method: registers the pending promise,
posts `\x7bid, args\x7d` to the backing runtime, and arms a timer only when
`options && options.timeout` is truthy (otherwise `this._timer` is left
untouched). `callId` identifies the caller's new promise and `msgId` is
the `Math.random()` correlation id. -/
def SimpleWorker.send (s : SimpleWorker) (options : Option SendOptions)
    (callId : Nat) (msgId : Nat) (args : List Val) : SimpleWorker × WEffect :=
  let s1 : SimpleWorker := ⟨s.workerGen, some callId, s.timer⟩
  let s2 : SimpleWorker :=
    match timeoutOf options with
    | some t => ⟨s1.workerGen, s1.promise, some t⟩
    | none => s1
  (s2, ⟨[], [⟨msgId, args⟩], [], []⟩)

/-- The worker-side message handler installed by
`WorkerPool.implementWorker(implementation)`: runs the implementation on
the received args and posts back `\x7bid, value\x7d` on success or
`\x7bid, error: error.message, stack: error.stack\x7d` when it throws.
The reply always echoes the received correlation id. -/
def workerOnMessage (impl : List Val → Except JsError Val) (m : OutMessage) :
    InMessage :=
  match impl m.args with
  | Except.ok v => ⟨some m.id, some v, none, none⟩
  | Except.error e => ⟨some m.id, none, some e.message, e.stack⟩

/-- Coordinator bookkeeping of `WorkerPool`: `free` is `this._free`
(a stack of idle workers, JS push/pop end at the list head) and `waiting`
is `this._waiting` (FIFO queue of blocked callers in JS order: push at the
tail, shift from the head). Workers and callers are identified by `Nat`. -/
structure WorkerPool where
  free : List Nat
  waiting : List Nat
deriving DecidableEq

/-- The `WorkerPool` constructor: creates `size` workers eagerly, all free,
with nobody waiting. -/
def WorkerPool.init (size : Nat) : WorkerPool :=
  ⟨List.range size, []⟩

/-- Result of `acquire()`: either a worker popped from the free stack, or
the caller was appended to the waiter queue and suspends. -/
inductive AcquireResult where
  | got (w : Nat)
  | queued
deriving DecidableEq

/-- The `acquire()` method: `this._free.pop()` if non-empty, else push the
caller's resume callback onto the tail of `this._waiting`. -/
def WorkerPool.acquire (p : WorkerPool) (caller : Nat) :
    WorkerPool × AcquireResult :=
  match p.free with
  | w :: rest => (⟨rest, p.waiting⟩, AcquireResult.got w)
  | [] => (⟨p.free, p.waiting ++ [caller]⟩, AcquireResult.queued)

/-- The `release(worker)` method: `this._waiting.shift()`; if a waiter was
dequeued the worker is handed directly to it (returned as
`some (caller, worker)`, bypassing the free stack), else the worker is
pushed onto the free stack. -/
def WorkerPool.release (p : WorkerPool) (w : Nat) :
    WorkerPool × Option (Nat × Nat) :=
  match p.waiting with
  | c :: rest => (⟨p.free, rest⟩, some (c, w))
  | [] => (⟨w :: p.free, p.waiting⟩, none)

/-- Coordinator-level operations performed by one `WorkerPool.send` call on
the shared pool, in program order. -/
inductive PoolOp where
  | acq (w : Nat)
  | rel (w : Nat)
deriving DecidableEq

/-- Recognizes a release operation. -/
def PoolOp.isRel : PoolOp → Bool
  | rel _ => true
  | acq _ => false

/-- The possible behaviors of the awaited `worker.send(options, ...args)`
inside `WorkerPool.send`'s try block: it throws synchronously, or the
returned promise resolves, or it rejects (task error or timeout-induced
termination). -/
inductive Submission where
  | syncThrow (e : String)
  | resolves (v : Val)
  | rejects (e : String)
deriving DecidableEq

/-- What `await worker.send(...)` inside the try block yields: a value, or
an exception that propagates (a synchronous throw and a rejection reach the
same catch/finally path). -/
def Submission.awaited : Submission → Except String Val
  | syncThrow e => Except.error e
  | resolves v => Except.ok v
  | rejects e => Except.error e

/-- The control flow of `WorkerPool.send` around the acquired worker `w`:
`acquire`, then `try \x7bresult = await worker.send(...)\x7d finally
\x7bthis.release(worker)\x7d`, then return the result or rethrow. The
finally clause runs on every exit path, so the emitted pool operations are
the same whether the body yields a value or an exception. -/
def WorkerPool.sendFlow (w : Nat) (sub : Submission) :
    List PoolOp × Except String Val :=
  match sub.awaited with
  | Except.ok v => ([PoolOp.acq w, PoolOp.rel w], Except.ok v)
  | Except.error e => ([PoolOp.acq w, PoolOp.rel w], Except.error e)

/-- Whole-pool bookkeeping state for the concurrency invariants: the free
stack and waiter queue of `WorkerPool`, plus the multiset (as a list) of
workers currently held by in-flight `send` calls. -/
structure PoolSys where
  free : List Nat
  busy : List Nat
  waiting : List Nat
deriving DecidableEq

/-- Coordinator events generated by concurrent `send` calls, which run on a
single-threaded cooperative scheduler: an `acquire` by some caller, or a
`release` of a worker by the `send` call holding it (the code only ever
releases the worker it acquired, so a `release` of a non-busy worker never
occurs and is a no-op here). -/
inductive PoolEv where
  | acquire (caller : Nat)
  | release (w : Nat)
deriving DecidableEq

/-- One coordinator step. `acquire` pops a free worker (which becomes
busy) or enqueues the caller; `release` hands the worker to the head
waiter when one exists (the worker stays busy, now on the waiter's behalf)
and otherwise moves it from busy to the free stack. -/
def PoolSys.step (s : PoolSys) : PoolEv → PoolSys
  | PoolEv.acquire c =>
    match s.free with
    | w :: rest => ⟨rest, w :: s.busy, s.waiting⟩
    | [] => ⟨s.free, s.busy, s.waiting ++ [c]⟩
  | PoolEv.release w =>
    if w ∈ s.busy then
      match s.waiting with
      | _c :: rest => ⟨s.free, s.busy, rest⟩
      | [] => ⟨w :: s.free, s.busy.erase w, s.waiting⟩
    else s

/-- Run a pool of size `n` from construction through a sequence of
coordinator events. -/
def PoolSys.run (n : Nat) (evs : List PoolEv) : PoolSys :=
  evs.foldl PoolSys.step ⟨List.range n, [], []⟩

/-- The coordinator invariant: no worker is duplicated across the free
stack and the busy multiset, and together they account for exactly the `n`
constructed workers. -/
def PoolSys.Inv (n : Nat) (s : PoolSys) : Prop :=
  (s.free ++ s.busy).Nodup ∧ s.free.length + s.busy.length = n

/-- Asynchronous events that can reach one `SimpleWorker`: a message from
the backing runtime, an armed timeout firing, an explicit `terminate`, or
a new `send` submission. The `teardownOk` arguments are the eventual
outcomes of the fire-and-forget teardowns. -/
inductive WEv where
  | msg (m : InMessage)
  | fire (teardownOk : Bool)
  | term (cause : Option String) (teardownOk : Bool)
  | subm (options : Option SendOptions) (callId : Nat) (msgId : Nat) (args : List Val)
deriving DecidableEq

/-- Dispatch one event to the worker. A `fire` event only does something
when a timer is armed (`setTimeout` was called and not cleared); with no
armed timer there is no timer to fire and the state is untouched. -/
def SimpleWorker.step (s : SimpleWorker) : WEv → SimpleWorker × WEffect
  | WEv.msg m => s.handleMessage m
  | WEv.fire b =>
    match s.timer with
    | some _ => s.handleTimeout b
    | none => (s, WEffect.empty)
  | WEv.term c b => s.terminate c b
  | WEv.subm o c mid args => s.send o c mid args

/-- Run a worker through a list of events, accumulating every promise
settlement it performs. -/
def SimpleWorker.runWith (s : SimpleWorker) (acc : List Resolution) :
    List WEv → SimpleWorker × List Resolution
  | [] => (s, acc)
  | ev :: evs =>
    let r := s.step ev
    r.1.runWith (acc ++ r.2.resolutions) evs

/-- Run a worker through a list of events from an empty settlement log. -/
def SimpleWorker.run (s : SimpleWorker) (evs : List WEv) :
    SimpleWorker × List Resolution :=
  s.runWith [] evs

/-- The caller whose promise a settlement settles. -/
def Resolution.callOf : Resolution → Nat
  | resolve c _ => c
  | reject c _ _ => c

/-- How many settlements in a log settle pending call `c`. -/
def countRes (c : Nat) (l : List Resolution) : Nat :=
  l.countP (fun r => r.callOf == c)

/-- An event does not reuse `c` as the id of a NEW pending call
(`send` promises are created fresh, so a later submission never carries an
existing call's identity). -/
def WEv.freshFor (c : Nat) : WEv → Bool
  | subm _ c' _ _ => c' != c
  | _ => true

/-! Force-flag parsing of `readability-server/index.js`.

`const booleanTrue = /^(t|true|1)*$/i` and
`const force = booleanTrue.test(request.query.force)`.

The regular expression is embedded as a recursive matcher on the
lowercased character list: the language of `(t|true|1)*` is matched by
repeatedly stripping a leading block, trying `true` before `t` (whenever
the input begins with the characters `t r u e`, stripping only `t` leaves
a leading `r`, which no block can start, so this greedy order is complete
and no further backtracking is needed). -/

/-- Matcher for the (lowercased) language of `(t|true|1)*`. -/
def matchTrue1Star : List Char → Bool
  | [] => true
  | 't' :: 'r' :: 'u' :: 'e' :: rest => matchTrue1Star rest
  | 't' :: rest => matchTrue1Star rest
  | '1' :: rest => matchTrue1Star rest
  | _ => false

/-- The test `booleanTrue.test(s)` for a string `s`: the `i` flag makes
matching case-insensitive, modelled by lowercasing the subject (the
pattern's letters are lowercase ASCII). -/
def booleanTrueTest (s : String) : Bool :=
  matchTrue1Star (s.data.map Char.toLower)

/-- JS string coercion of `request.query.force` as the regex subject: an
absent query parameter is `undefined`, which `RegExp.test` coerces to the
string `"undefined"`. -/
def jsStringOf : Option String → String
  | some s => s
  | none => "undefined"

/-- The middleware line `const force = booleanTrue.test(request.query.force)`
applied to a present-or-absent `force` query parameter. -/
def forceOf (q : Option String) : Bool :=
  booleanTrueTest (jsStringOf q)

/-- The specification language: a character list is a concatenation of
zero or more of the words `t`, `true`, `1`. -/
inductive ForceLang : List Char → Prop
  | nil : ForceLang []
  | tee {rest} : ForceLang rest → ForceLang ('t' :: rest)
  | word {rest} : ForceLang rest → ForceLang ('t' :: 'r' :: 'u' :: 'e' :: rest)
  | one {rest} : ForceLang rest → ForceLang ('1' :: rest)

/-! Theorems. -/

/-- C1: `WorkerPool.send` performs exactly one `acquire` and exactly one
`release`, of the acquired worker, on every exit path of the try/finally —
whether the awaited submission resolves, rejects (task error or timeout
termination), or throws synchronously — and it passes the submission's
outcome through unchanged. So no worker is leaked and none is released
twice per `send` call. -/
theorem claim_C1 (w : Nat) (sub : Submission) :
    (WorkerPool.sendFlow w sub).1 = [PoolOp.acq w, PoolOp.rel w] ∧
    (WorkerPool.sendFlow w sub).1.filter PoolOp.isRel = [PoolOp.rel w] ∧
    (WorkerPool.sendFlow w sub).2 = sub.awaited := by
  cases sub <;>
    simp [WorkerPool.sendFlow, Submission.awaited, PoolOp.isRel]

/-- C2: the waiter queue is strict FIFO. `acquire` with an empty free
stack appends the caller at the tail of the queue, and `release` hands the
freed worker directly to the head waiter (the free stack is untouched), so
when callers `a` then `b` head the queue, `a` receives the next freed
worker and `b` the one after. -/
theorem claim_C2 (p : WorkerPool) (a b : Nat) (rest : List Nat)
    (w w' caller : Nat) :
    (p.free = [] →
      (p.acquire caller).1.waiting = p.waiting ++ [caller] ∧
      (p.acquire caller).2 = AcquireResult.queued) ∧
    (p.waiting = a :: b :: rest →
      (p.release w).2 = some (a, w) ∧
      (p.release w).1.free = p.free ∧
      (p.release w).1.waiting = b :: rest ∧
      ((p.release w).1.release w').2 = some (b, w')) := by
  constructor
  · intro hfree
    simp [WorkerPool.acquire, hfree]
  · intro hwait
    simp [WorkerPool.release, hwait]

/-- Witness for C2 at a concrete pool: free stack empty, callers 1 then 2
then 5 waiting; worker 0 is freed and goes to caller 1, then worker 3 is
freed and goes to caller 2; a concurrent `acquire` by caller 9 queues at
the tail. -/
theorem claim_C2_witness :
    ((⟨[], [1, 2, 5]⟩ : WorkerPool).free = [] ∧
      (⟨[], [1, 2, 5]⟩ : WorkerPool).waiting = 1 :: 2 :: [5]) ∧
    ((⟨[], [1, 2, 5]⟩ : WorkerPool).acquire 9).1.waiting = [1, 2, 5] ++ [9] ∧
    ((⟨[], [1, 2, 5]⟩ : WorkerPool).release 0).2 = some (1, 0) ∧
    (((⟨[], [1, 2, 5]⟩ : WorkerPool).release 0).1.release 3).2 = some (2, 3) := by
  refine ⟨⟨rfl, rfl⟩, ?_, ?_, ?_⟩
  · exact (claim_C2 ⟨[], [1, 2, 5]⟩ 1 2 [5] 0 3 9).1 rfl |>.1
  · exact ((claim_C2 ⟨[], [1, 2, 5]⟩ 1 2 [5] 0 3 9).2 rfl).1
  · exact ((claim_C2 ⟨[], [1, 2, 5]⟩ 1 2 [5] 0 3 9).2 rfl).2.2.2

/-- One coordinator step preserves the pool invariant. -/
lemma PoolSys.step_inv {n : Nat} {s : PoolSys} (ev : PoolEv)
    (h : s.Inv n) : (s.step ev).Inv n := by
  obtain ⟨hnd, hlen⟩ := h
  cases ev with
  | acquire c =>
    cases hf : s.free with
    | nil =>
      simp only [PoolSys.step, hf]
      exact ⟨by simpa [hf] using hnd, by simpa [hf] using hlen⟩
    | cons w rest =>
      simp only [PoolSys.step, hf]
      constructor
      · have hnd' : (w :: (rest ++ s.busy)).Nodup := by
          rw [hf] at hnd; simpa using hnd
        exact List.perm_middle.symm.nodup hnd'
      · rw [hf] at hlen; simp at hlen ⊢; omega
  | release w =>
    by_cases hb : w ∈ s.busy
    · cases hw : s.waiting with
      | cons c rest =>
        simp only [PoolSys.step, hb, if_true, hw]
        exact ⟨hnd, hlen⟩
      | nil =>
        simp only [PoolSys.step, hb, if_true, hw]
        constructor
        · have h1 : s.busy.Perm (w :: s.busy.erase w) :=
            List.perm_cons_erase hb
          have h2 : (s.free ++ s.busy).Perm (w :: (s.free ++ s.busy.erase w)) :=
            (List.Perm.append_left s.free h1).trans List.perm_middle
          simpa using h2.nodup hnd
        · have he := List.length_erase_of_mem hb
          have hpos := List.length_pos_of_mem hb
          simp [he]; omega
    · simp only [PoolSys.step, hb, if_false]
      exact ⟨hnd, hlen⟩

/-- Every state reachable from pool construction satisfies the invariant. -/
lemma PoolSys.run_inv (n : Nat) (evs : List PoolEv) :
    (PoolSys.run n evs).Inv n := by
  have haux : ∀ (l : List PoolEv) (s : PoolSys),
      s.Inv n → (l.foldl PoolSys.step s).Inv n := by
    intro l
    induction l with
    | nil => intro s hs; simpa using hs
    | cons e l ih =>
      intro s hs
      exact ih _ (PoolSys.step_inv e hs)
  exact haux evs _ ⟨by simpa using List.nodup_range n, by simp⟩

/-- C3: for a pool of size `n ≥ 1` and any sequence of coordinator events
generated by concurrent `send` calls, at most `n` workers are in flight at
once, no worker is held by two in-flight tasks at the same time, and no
worker is ever in the free stack while busy. -/
theorem claim_C3 (n : Nat) (evs : List PoolEv) (_h : 1 ≤ n) :
    (PoolSys.run n evs).busy.length ≤ n ∧
    (PoolSys.run n evs).busy.Nodup ∧
    ∀ w ∈ (PoolSys.run n evs).free, w ∉ (PoolSys.run n evs).busy := by
  obtain ⟨hnd, hlen⟩ := PoolSys.run_inv n evs
  have hparts := List.nodup_append.mp hnd
  exact ⟨by omega, hparts.2.1, fun w hw hmem => hparts.2.2 hw hmem⟩

/-- Witness for C3: a pool of size 2 taken through three acquires (the
third queues) and two releases; the final busy list has one worker,
without duplicates. -/
theorem claim_C3_witness :
    1 ≤ 2 ∧
    (PoolSys.run 2 [PoolEv.acquire 10, PoolEv.acquire 11, PoolEv.acquire 12,
      PoolEv.release 0, PoolEv.release 1]).busy.length ≤ 2 ∧
    (PoolSys.run 2 [PoolEv.acquire 10, PoolEv.acquire 11, PoolEv.acquire 12,
      PoolEv.release 0, PoolEv.release 1]).busy.Nodup := by
  refine ⟨by decide, ?_, ?_⟩
  · exact (claim_C3 2 [PoolEv.acquire 10, PoolEv.acquire 11, PoolEv.acquire 12,
      PoolEv.release 0, PoolEv.release 1] (by decide)).1
  · exact (claim_C3 2 [PoolEv.acquire 10, PoolEv.acquire 11, PoolEv.acquire 12,
      PoolEv.release 0, PoolEv.release 1] (by decide)).2.1

/-- The single settlement `_handleMessage` performs for pending call `c`
on message `m`: resolve with the value when `message.error` is falsy,
reject with the message and relayed stack when truthy. -/
def resolutionFor (c : Nat) (m : InMessage) : Resolution :=
  match m.error with
  | some e =>
    if e = "" then Resolution.resolve c m.value
    else Resolution.reject c e m.stack
  | none => Resolution.resolve c m.value

/-- The settlement `_handleMessage` performs always settles the pending
call it found in the slot. -/
lemma callOf_resolutionFor (c : Nat) (m : InMessage) :
    (resolutionFor c m).callOf = c := by
  rcases hm : m.error with _ | e
  · simp [resolutionFor, hm, Resolution.callOf]
  · by_cases he : e = "" <;> simp [resolutionFor, hm, he, Resolution.callOf]

/-- Characterization of `_handleMessage` on a busy worker: the pending
slot and the timer are cleared, the backing runtime is untouched, and
exactly one settlement is emitted. -/
lemma handleMessage_busy (g c : Nat) (t : Option Nat) (m : InMessage) :
    SimpleWorker.handleMessage ⟨g, some c, t⟩ m =
      (⟨g, none, none⟩, ⟨[resolutionFor c m], [], [], []⟩) := by
  rcases hm : m.error with _ | e
  · simp [SimpleWorker.handleMessage, resolutionFor, hm]
  · by_cases he : e = "" <;>
      simp [SimpleWorker.handleMessage, resolutionFor, hm, he]

/-- Characterization of `_handleMessage` on an idle worker: the message is
spurious, only a diagnostic log is emitted and nothing is settled. -/
lemma handleMessage_idle (g : Nat) (t : Option Nat) (m : InMessage) :
    SimpleWorker.handleMessage ⟨g, none, t⟩ m =
      (⟨g, none, t⟩, ⟨[], [], [LogEvent.spuriousMessage], []⟩) := by
  simp [SimpleWorker.handleMessage]

/-- The marker `cause || 'TERMINATED'` is never the empty string. -/
lemma jsOr_ne_empty (cause : Option String) : jsOr cause "TERMINATED" ≠ "" := by
  cases cause with
  | none => simp [jsOr]
  | some c =>
    by_cases hc : c = "" <;> simp [jsOr, hc]

/-- Characterization of `terminate` on a busy worker: the backing runtime
is torn down and replaced, the pending call is rejected with
`cause || 'TERMINATED'` and no stack, nothing is posted, and the teardown
outcome is logged. -/
lemma terminate_busy (g c : Nat) (t : Option Nat) (cause : Option String)
    (b : Bool) :
    SimpleWorker.terminate ⟨g, some c, t⟩ cause b =
      (⟨g + 1, none, none⟩,
       ⟨[Resolution.reject c (jsOr cause "TERMINATED") none], [],
        [if b then LogEvent.teardownOk else LogEvent.teardownFailed], [g]⟩) := by
  have hne := jsOr_ne_empty cause
  simp [SimpleWorker.terminate, handleMessage_busy, resolutionFor, hne]

/-- Characterization of `terminate` on an idle worker: the backing runtime
is torn down and replaced and nothing is settled. -/
lemma terminate_idle (g : Nat) (t : Option Nat) (cause : Option String)
    (b : Bool) :
    SimpleWorker.terminate ⟨g, none, t⟩ cause b =
      (⟨g + 1, none, t⟩,
       ⟨[], [], [if b then LogEvent.teardownOk else LogEvent.teardownFailed],
        [g]⟩) := by
  simp [SimpleWorker.terminate]

/-- Settlement counts add over concatenated logs. -/
lemma countRes_append (c : Nat) (l1 l2 : List Resolution) :
    countRes c (l1 ++ l2) = countRes c l1 + countRes c l2 := by
  simp [countRes, List.countP_append]

/-- A step on a worker whose slot does not hold call `c` (and whose event
does not submit a new call under id `c`) never settles `c` and never puts
`c` back into the slot. -/
lemma step_not_target (c : Nat) (s : SimpleWorker) (ev : WEv)
    (hs : s.promise ≠ some c) (hf : WEv.freshFor c ev = true) :
    (s.step ev).1.promise ≠ some c ∧
    countRes c (s.step ev).2.resolutions = 0 := by
  obtain ⟨g, p, t⟩ := s
  cases ev with
  | msg m =>
    cases p with
    | none => simp [SimpleWorker.step, handleMessage_idle, countRes]
    | some c' =>
      have hcc : c' ≠ c := by simpa using hs
      simp [SimpleWorker.step, handleMessage_busy, countRes,
        callOf_resolutionFor, hcc]
  | fire b =>
    cases t with
    | none =>
      refine ⟨by simpa using hs, ?_⟩
      simp [SimpleWorker.step, WEffect.empty, countRes]
    | some tv =>
      cases p with
      | none =>
        simp [SimpleWorker.step, SimpleWorker.handleTimeout, terminate_idle,
          countRes]
      | some c' =>
        have hcc : c' ≠ c := by simpa using hs
        simp [SimpleWorker.step, SimpleWorker.handleTimeout, terminate_busy,
          countRes, Resolution.callOf, hcc]
  | term cause b =>
    cases p with
    | none => simp [SimpleWorker.step, terminate_idle, countRes]
    | some c' =>
      have hcc : c' ≠ c := by simpa using hs
      simp [SimpleWorker.step, terminate_busy, countRes, Resolution.callOf,
        hcc]
  | subm o c' mid args =>
    have hcc : c' ≠ c := by simpa [WEv.freshFor] using hf
    cases ht : timeoutOf o <;>
      simp [SimpleWorker.step, SimpleWorker.send, ht, countRes, hcc]

/-- A step on a worker whose slot holds call `c` either leaves the call
pending and settles nothing for it, or removes it from the slot settling
it at most once. -/
lemma step_target (c : Nat) (s : SimpleWorker) (ev : WEv)
    (hs : s.promise = some c) (hf : WEv.freshFor c ev = true) :
    ((s.step ev).1.promise = some c ∧
      countRes c (s.step ev).2.resolutions = 0) ∨
    ((s.step ev).1.promise ≠ some c ∧
      countRes c (s.step ev).2.resolutions ≤ 1) := by
  obtain ⟨g, p, t⟩ := s
  have hp : p = some c := by simpa using hs
  subst hp
  cases ev with
  | msg m =>
    right
    simp [SimpleWorker.step, handleMessage_busy, countRes,
      callOf_resolutionFor]
  | fire b =>
    cases t with
    | none =>
      left
      simp [SimpleWorker.step, WEffect.empty, countRes]
    | some tv =>
      right
      simp [SimpleWorker.step, SimpleWorker.handleTimeout, terminate_busy,
        countRes, Resolution.callOf]
  | term cause b =>
    right
    simp [SimpleWorker.step, terminate_busy, countRes, Resolution.callOf]
  | subm o c' mid args =>
    right
    have hcc : c' ≠ c := by simpa [WEv.freshFor] using hf
    cases ht : timeoutOf o <;>
      simp [SimpleWorker.step, SimpleWorker.send, ht, countRes, hcc]

/-- Trace bound: starting from any worker and settlement log satisfying
the slot/count invariant, a run over fresh events settles call `c` at most
once in total. -/
lemma runWith_bound (c : Nat) :
    ∀ (evs : List WEv) (s : SimpleWorker) (acc : List Resolution),
      (∀ ev ∈ evs, WEv.freshFor c ev = true) →
      (s.promise = some c → countRes c acc = 0) →
      countRes c acc ≤ 1 →
      countRes c (s.runWith acc evs).2 ≤ 1 := by
  intro evs
  induction evs with
  | nil =>
    intro s acc _ _ h2
    simpa [SimpleWorker.runWith] using h2
  | cons ev evs ih =>
    intro s acc hf h1 h2
    have hfe : WEv.freshFor c ev = true := hf ev (by simp)
    have hfr : ∀ e ∈ evs, WEv.freshFor c e = true :=
      fun e he => hf e (by simp [he])
    simp only [SimpleWorker.runWith]
    by_cases hp : s.promise = some c
    · have h0 := h1 hp
      rcases step_target c s ev hp hfe with ⟨hp', hc'⟩ | ⟨hp', hc'⟩
      · refine ih _ _ hfr ?_ ?_
        · intro _
          simp [countRes_append, h0, hc']
        · simp [countRes_append, h0, hc']
      · refine ih _ _ hfr ?_ ?_
        · intro hcontra
          exact absurd hcontra hp'
        · rw [countRes_append]
          omega
    · obtain ⟨hp', hc'⟩ := step_not_target c s ev hp hfe
      refine ih _ _ hfr ?_ ?_
      · intro hcontra
        exact absurd hcontra hp'
      · rw [countRes_append]
        omega

/-- C4: a pending call is settled at most once over any event trace (no
later submission reuses its id), the message handler clears the pending
slot and settles the call exactly once, a second delivery settles nothing,
and `terminate` with an outstanding call settles it through the very same
`_handleMessage` path, exactly once. -/
theorem claim_C4 (s : SimpleWorker) (c : Nat) (evs : List WEv)
    (m m' : InMessage) (cause : Option String) (b : Bool)
    (hs : s.promise = some c)
    (hf : ∀ ev ∈ evs, WEv.freshFor c ev = true) :
    countRes c (s.run evs).2 ≤ 1 ∧
    (s.handleMessage m).1.promise = none ∧
    countRes c (s.handleMessage m).2.resolutions = 1 ∧
    ((s.handleMessage m).1.handleMessage m').2.resolutions = [] ∧
    (s.terminate cause b).2.resolutions =
      ((⟨s.workerGen + 1, s.promise, s.timer⟩ : SimpleWorker).handleMessage
        ⟨none, none, some (jsOr cause "TERMINATED"), none⟩).2.resolutions ∧
    countRes c (s.terminate cause b).2.resolutions = 1 := by
  obtain ⟨g, p, t⟩ := s
  have hp : p = some c := by simpa using hs
  subst hp
  have hne := jsOr_ne_empty cause
  refine ⟨?_, ?_, ?_, ?_, ?_, ?_⟩
  · exact runWith_bound c evs ⟨g, some c, t⟩ [] hf
      (fun _ => by simp [countRes]) (by simp [countRes])
  · simp [handleMessage_busy]
  · simp [handleMessage_busy, countRes, callOf_resolutionFor]
  · simp [handleMessage_busy, handleMessage_idle]
  · simp [terminate_busy, handleMessage_busy, resolutionFor, hne]
  · simp [terminate_busy, countRes, Resolution.callOf]

/-- Witness for C4 at a concrete busy worker and a concrete fresh trace
(one reply, one timer opportunity, one submission under a different id). -/
theorem claim_C4_witness :
    (⟨0, some 1, none⟩ : SimpleWorker).promise = some 1 ∧
    ([WEv.msg ⟨some 2, some "v", none, none⟩, WEv.fire true,
        WEv.subm none 2 3 []].all (WEv.freshFor 1) = true) ∧
    countRes 1 ((⟨0, some 1, none⟩ : SimpleWorker).run
      [WEv.msg ⟨some 2, some "v", none, none⟩, WEv.fire true,
        WEv.subm none 2 3 []]).2 ≤ 1 ∧
    countRes 1 ((⟨0, some 1, none⟩ : SimpleWorker).terminate
      none false).2.resolutions = 1 := by
  refine ⟨rfl, by decide, ?_, ?_⟩
  · exact (claim_C4 ⟨0, some 1, none⟩ 1
      [WEv.msg ⟨some 2, some "v", none, none⟩, WEv.fire true,
        WEv.subm none 2 3 []]
      ⟨some 4, some "w", none, none⟩ ⟨some 5, none, some "boom", some "st"⟩
      none false rfl (by decide)).1
  · exact (claim_C4 ⟨0, some 1, none⟩ 1
      [WEv.msg ⟨some 2, some "v", none, none⟩, WEv.fire true,
        WEv.subm none 2 3 []]
      ⟨some 4, some "w", none, none⟩ ⟨some 5, none, some "boom", some "st"⟩
      none false rfl (by decide)).2.2.2.2.2

/-- C5: when the armed timeout fires on a busy worker, the firing invokes
`_handleTimeout`, which is exactly `terminate('TIMEDOUT')`: the caller's
promise is rejected with the `TIMEDOUT` marker, the backing runtime is
unconditionally torn down and replaced, and nothing is re-posted to any
runtime (the task is never retried). -/
theorem claim_C5 (s : SimpleWorker) (c tv : Nat) (b : Bool)
    (hp : s.promise = some c) (ht : s.timer = some tv) :
    s.step (WEv.fire b) = s.handleTimeout b ∧
    s.handleTimeout b = s.terminate (some "TIMEDOUT") b ∧
    (s.handleTimeout b).1 = ⟨s.workerGen + 1, none, none⟩ ∧
    (s.handleTimeout b).2.resolutions = [Resolution.reject c "TIMEDOUT" none] ∧
    (s.handleTimeout b).2.outbox = [] ∧
    (s.handleTimeout b).2.teardowns = [s.workerGen] := by
  obtain ⟨g, p, t⟩ := s
  have hp' : p = some c := by simpa using hp
  have ht' : t = some tv := by simpa using ht
  subst hp'; subst ht'
  have hj : jsOr (some "TIMEDOUT") "TERMINATED" = "TIMEDOUT" := rfl
  refine ⟨by simp [SimpleWorker.step], rfl, ?_, ?_, ?_, ?_⟩ <;>
    simp [SimpleWorker.handleTimeout, terminate_busy, hj]

/-- Witness for C5 at a concrete busy worker with an armed timer. -/
theorem claim_C5_witness :
    ((⟨0, some 1, some 10⟩ : SimpleWorker).promise = some 1 ∧
      (⟨0, some 1, some 10⟩ : SimpleWorker).timer = some 10) ∧
    ((⟨0, some 1, some 10⟩ : SimpleWorker).handleTimeout true).2.resolutions =
      [Resolution.reject 1 "TIMEDOUT" none] ∧
    ((⟨0, some 1, some 10⟩ : SimpleWorker).handleTimeout true).2.outbox = [] :=
  ⟨⟨rfl, rfl⟩, (claim_C5 ⟨0, some 1, some 10⟩ 1 10 true rfl rfl).2.2.2.1,
    (claim_C5 ⟨0, some 1, some 10⟩ 1 10 true rfl rfl).2.2.2.2.1⟩

/-- C6 (amended): `terminate` tears down the current backing runtime and
replaces it with a fresh one whose availability, and the settlement of any
outstanding call, do not depend on the teardown's outcome (teardown
failure is only logged, never propagated); an outstanding call is
immediately rejected with the given reason, defaulting to the string
`TERMINATED` (uppercase) when no reason is supplied. -/
theorem claim_C6 (s : SimpleWorker) (c : Nat) (cause : Option String)
    (b : Bool) :
    (s.terminate cause b).2.teardowns = [s.workerGen] ∧
    (s.terminate cause b).1.workerGen = s.workerGen + 1 ∧
    (s.terminate cause b).1 = (s.terminate cause true).1 ∧
    (s.terminate cause b).2.resolutions =
      (s.terminate cause true).2.resolutions ∧
    LogEvent.teardownFailed ∈ (s.terminate cause false).2.logs ∧
    (s.promise = some c →
      (s.terminate cause b).2.resolutions =
        [Resolution.reject c (jsOr cause "TERMINATED") none]) ∧
    jsOr none "TERMINATED" = "TERMINATED" := by
  obtain ⟨g, p, t⟩ := s
  cases p with
  | none =>
    refine ⟨?_, ?_, ?_, ?_, ?_, ?_, rfl⟩
    · simp [terminate_idle]
    · simp [terminate_idle]
    · simp [terminate_idle]
    · simp [terminate_idle]
    · simp [terminate_idle]
    · intro h
      exact absurd h (by simp)
  | some c' =>
    refine ⟨?_, ?_, ?_, ?_, ?_, ?_, rfl⟩
    · simp [terminate_busy]
    · simp [terminate_busy]
    · simp [terminate_busy]
    · simp [terminate_busy]
    · simp [terminate_busy]
    · intro h
      have hc : c' = c := by simpa using h
      subst hc
      simp [terminate_busy]

/-- Witness for C6 at a concrete busy worker terminated with no reason. -/
theorem claim_C6_witness :
    (⟨0, some 7, none⟩ : SimpleWorker).promise = some 7 ∧
    ((⟨0, some 7, none⟩ : SimpleWorker).terminate none false).2.resolutions =
      [Resolution.reject 7 "TERMINATED" none] ∧
    ((⟨0, some 7, none⟩ : SimpleWorker).terminate none false).1.workerGen = 1 :=
  ⟨rfl, (claim_C6 ⟨0, some 7, none⟩ 7 none false).2.2.2.2.2.1 rfl,
    (claim_C6 ⟨0, some 7, none⟩ 7 none false).2.1⟩

/-- Counterexample for C6 as stated: with no reason supplied, the failure
delivered to the outstanding call carries the string `TERMINATED`, which
is not the claimed `terminated`. -/
theorem claim_C6_counterexample :
    ((⟨0, some 7, none⟩ : SimpleWorker).terminate none true).2.resolutions =
      [Resolution.reject 7 "TERMINATED" none] ∧
    Resolution.reject 7 "terminated" none ∉
      ((⟨0, some 7, none⟩ : SimpleWorker).terminate none true).2.resolutions ∧
    ("TERMINATED" : String) ≠ "terminated" := by
  decide

/-- C7 (code bug): when the task function throws an error whose message is
the empty string, `implementWorker` posts `error: ''`, the truthiness test
`if (message.error)` in `_handleMessage` takes the success branch, and the
caller's promise is RESOLVED with `undefined` — the thrown error is
reported as a success, contradicting the documented contract that
exceptions are re-thrown in the calling process (the worker is otherwise
left reusable, backing runtime untouched). -/
theorem claim_C7 :
    workerOnMessage (fun _ => Except.error ⟨"", some "trace"⟩) ⟨5, []⟩ =
      ⟨some 5, none, some "", some "trace"⟩ ∧
    ((⟨0, some 3, none⟩ : SimpleWorker).handleMessage
        (workerOnMessage (fun _ => Except.error ⟨"", some "trace"⟩)
          ⟨5, []⟩)).2.resolutions = [Resolution.resolve 3 none] ∧
    ((⟨0, some 3, none⟩ : SimpleWorker).handleMessage
        (workerOnMessage (fun _ => Except.error ⟨"", some "trace"⟩)
          ⟨5, []⟩)).1.workerGen = 0 := by
  decide

/-- C8: every outbound message carries the correlation id and the argument
list, the worker-side reply echoes that id alongside the value/error/stack
payload, and `_handleMessage` ignores the inbound id entirely — its result
is the same for any two ids — settling whichever single call is
outstanding on that worker. -/
theorem claim_C8 (s : SimpleWorker) (opts : Option SendOptions)
    (callId msgId : Nat) (args : List Val)
    (impl : List Val → Except JsError Val) (m : InMessage)
    (i i' : Option Nat) (c : Nat) :
    (s.send opts callId msgId args).2.outbox = [⟨msgId, args⟩] ∧
    (workerOnMessage impl ⟨msgId, args⟩).id = some msgId ∧
    s.handleMessage ⟨i, m.value, m.error, m.stack⟩ =
      s.handleMessage ⟨i', m.value, m.error, m.stack⟩ ∧
    (s.promise = some c →
      (s.handleMessage m).2.resolutions = [resolutionFor c m]) := by
  refine ⟨?_, ?_, ?_, ?_⟩
  · cases ht : timeoutOf opts <;> simp [SimpleWorker.send, ht]
  · cases h : impl args <;> simp [workerOnMessage, h]
  · obtain ⟨g, p, t⟩ := s
    cases p with
    | none => simp [handleMessage_idle]
    | some c' => simp [handleMessage_busy, resolutionFor]
  · intro hp
    obtain ⟨g, p, t⟩ := s
    have hc : p = some c := by simpa using hp
    subst hc
    simp [handleMessage_busy]

/-- Witness for C8 at a concrete busy worker and message. -/
theorem claim_C8_witness :
    (⟨0, some 2, none⟩ : SimpleWorker).promise = some 2 ∧
    ((⟨0, some 2, none⟩ : SimpleWorker).handleMessage
        ⟨some 9, some "q", none, none⟩).2.resolutions =
      [resolutionFor 2 ⟨some 9, some "q", none, none⟩] :=
  ⟨rfl, (claim_C8 ⟨0, some 2, none⟩ none 2 9 []
    (fun _ => Except.ok "v") ⟨some 9, some "q", none, none⟩
    (some 1) none 2).2.2.2 rfl⟩

/-- C9: a `send` on an idle worker with absent options or an absent, zero,
or otherwise falsy timeout arms no timer, so no timeout can ever fire: any
number of firing opportunities leaves the worker unchanged with the call
still pending and settles nothing, and the call can only settle through a
runtime reply or an explicit terminate. -/
theorem claim_C9 (s : SimpleWorker) (opts : Option SendOptions)
    (callId msgId : Nat) (args : List Val)
    (hp : s.promise = none) (ht : s.timer = none)
    (hopt : timeoutOf opts = none) :
    (s.send opts callId msgId args).1.timer = none ∧
    (s.send opts callId msgId args).1.promise = some callId ∧
    (∀ b, (s.send opts callId msgId args).1.step (WEv.fire b) =
      ((s.send opts callId msgId args).1, WEffect.empty)) ∧
    (∀ (n : Nat) (b : Bool),
      (s.send opts callId msgId args).1.runWith []
          (List.replicate n (WEv.fire b)) =
        ((s.send opts callId msgId args).1, [])) := by
  obtain ⟨g, p, t⟩ := s
  have hp' : p = none := by simpa using hp
  have ht' : t = none := by simpa using ht
  subst hp'; subst ht'
  have hsend : SimpleWorker.send ⟨g, none, none⟩ opts callId msgId args =
      (⟨g, some callId, none⟩, ⟨[], [⟨msgId, args⟩], [], []⟩) := by
    simp [SimpleWorker.send, hopt]
  refine ⟨by simp [hsend], by simp [hsend], ?_, ?_⟩
  · intro b
    simp [hsend, SimpleWorker.step]
  · intro n b
    simp only [hsend]
    induction n with
    | zero => simp [SimpleWorker.runWith]
    | succ k ihk =>
      simp only [List.replicate_succ, SimpleWorker.runWith,
        SimpleWorker.step, List.nil_append]
      exact ihk

/-- Witness for C9: an idle worker sent a task with `timeout: 0` arms no
timer, and three timer-firing opportunities change nothing. -/
theorem claim_C9_witness :
    ((⟨0, none, none⟩ : SimpleWorker).promise = none ∧
      (⟨0, none, none⟩ : SimpleWorker).timer = none ∧
      timeoutOf (some ⟨some 0⟩) = none) ∧
    ((⟨0, none, none⟩ : SimpleWorker).send (some ⟨some 0⟩) 4 9 ["h"]).1.timer =
      none ∧
    ((⟨0, none, none⟩ : SimpleWorker).send (some ⟨some 0⟩) 4 9 ["h"]).1.runWith
        [] (List.replicate 3 (WEv.fire true)) =
      (((⟨0, none, none⟩ : SimpleWorker).send (some ⟨some 0⟩) 4 9 ["h"]).1, []) :=
  ⟨⟨rfl, rfl, rfl⟩,
    (claim_C9 ⟨0, none, none⟩ (some ⟨some 0⟩) 4 9 ["h"] rfl rfl rfl).1,
    (claim_C9 ⟨0, none, none⟩ (some ⟨some 0⟩) 4 9 ["h"] rfl rfl rfl).2.2.2 3 true⟩

/-- Soundness of the matcher: an accepted character list is a
concatenation of the words `t`, `true`, `1`. -/
lemma matchTrue1Star_sound : ∀ l : List Char,
    matchTrue1Star l = true → ForceLang l := by
  intro l
  induction l using matchTrue1Star.induct with
  | case1 =>
    intro _
    exact ForceLang.nil
  | case2 rest ih =>
    intro h
    exact ForceLang.word (ih (by simpa [matchTrue1Star] using h))
  | case3 rest hne ih =>
    intro h
    refine ForceLang.tee (ih ?_)
    rw [matchTrue1Star.eq_def] at h
    split at h
    all_goals simp_all
  | case4 rest ih =>
    intro h
    refine ForceLang.one (ih ?_)
    rw [matchTrue1Star.eq_def] at h
    split at h
    all_goals simp_all
  | case5 t h1 h2 h3 h4 =>
    intro h
    exfalso
    rw [matchTrue1Star.eq_def] at h
    split at h
    all_goals simp_all

/-- Completeness of the matcher: every concatenation of the words `t`,
`true`, `1` is accepted (the greedy try-true-before-t order loses nothing,
because after stripping `t` from a `true` prefix the remainder starts with
`r`, which no word can start). -/
lemma matchTrue1Star_complete : ∀ l : List Char,
    ForceLang l → matchTrue1Star l = true := by
  intro l hl
  induction hl with
  | nil => rfl
  | tee h ih =>
    rename_i rest
    by_cases hsh : ∃ r2, rest = 'r' :: 'u' :: 'e' :: r2
    · obtain ⟨r2, hr⟩ := hsh
      rw [hr] at ih
      simp [matchTrue1Star] at ih
    · push_neg at hsh
      rw [matchTrue1Star.eq_def]
      split
      all_goals simp_all
  | word h ih =>
    simpa [matchTrue1Star] using ih
  | one h ih =>
    rename_i rest
    rw [matchTrue1Star.eq_def]
    split
    all_goals simp_all

/-- C10: `booleanTrue.test` accepts exactly the strings whose lowercasing
is a concatenation of zero or more of `t`, `true`, `1` (case-insensitive
matching); in particular a present-but-empty `force` query value (a bare
`?force=` parameter) yields force = true, while an absent `force`
parameter is coerced to the string `undefined` and yields force = false. -/
theorem claim_C10 :
    (∀ s : String,
      booleanTrueTest s = true ↔ ForceLang (s.data.map Char.toLower)) ∧
    booleanTrueTest "tTRUE1" = true ∧
    forceOf (some "") = true ∧
    forceOf none = false := by
  refine ⟨?_, by decide, by decide, by decide⟩
  intro s
  exact ⟨fun h => matchTrue1Star_sound _ h,
    fun h => matchTrue1Star_complete _ h⟩

/-- Witness for C10 at a concrete accepted string. -/
theorem claim_C10_witness :
    booleanTrueTest "true1" = true ∧
    ForceLang ("true1".data.map Char.toLower) :=
  ⟨by decide, (claim_C10.1 "true1").mp (by decide)⟩

/-- Witness for C1 at a concrete worker and a rejecting submission. -/
theorem claim_C1_witness :
    (WorkerPool.sendFlow 4 (Submission.rejects "x")).1 =
      [PoolOp.acq 4, PoolOp.rel 4] :=
  (claim_C1 4 (Submission.rejects "x")).1

end WM

